import Mathlib

/-!
A shallow embedding of the extraction-and-classification pipeline of
`scripts/app_updater.py` (a Farsroid release scraper), together with proofs
about it.  Strings are modelled as `String`/`List Char`; the Python standard
library pieces the script relies on (`str` methods, `re` with the concrete
patterns appearing in the script, `urllib.parse`, `packaging.version`) are
modelled by executable Lean functions whose doc comments state the modelled
subset.  The script's own functions keep their Python names.
-/

/-! ## Modelled Python primitives -/

/-- Whitespace, as matched by `str.strip()` and by `\s` in the script's
regexes (ASCII subset; the inputs of interest contain no exotic Unicode
spaces). -/
def isWs (c : Char) : Bool :=
  c = ' ' || c = '\t' || c = '\n' || c = '\r' || c = '\x0b' || c = '\x0c'

/-- `str.lower()`, character-wise, for ASCII letters.  Persian characters
have no case, so on the script's inputs this agrees with Python. -/
def pyLower (c : Char) : Char :=
  if 'A' ≤ c ∧ c ≤ 'Z' then Char.ofNat (c.toNat + 32) else c

/-- `str.lower()` on a whole string. -/
def lowerStr (s : String) : String := ⟨s.data.map pyLower⟩

/-- A word character for `\b` / `\w` in the script's regexes: ASCII
alphanumerics and underscore; every non-ASCII character is treated as a word
character (true of the Persian letters that occur; an overapproximation for
non-ASCII punctuation, which the concrete inputs below avoid at the
boundary positions where it matters). -/
def isWordChar (c : Char) : Bool :=
  c.isAlpha || c.isDigit || c = '_' || decide (c.toNat ≥ 128)

/-- Code-point comparison of strings, as Python's `<`/`>` on `str`. -/
def strCmpL : List Char → List Char → Ordering
  | [], [] => .eq
  | [], _ :: _ => .lt
  | _ :: _, [] => .gt
  | x :: xs, y :: ys =>
    if x.toNat < y.toNat then .lt
    else if y.toNat < x.toNat then .gt
    else strCmpL xs ys

/-- Python's `a > b` on strings. -/
def pyStrGt (a b : String) : Bool := strCmpL a.data b.data == Ordering.gt

/-- Python's `a <= b` on strings (used to model `sorted`). -/
def pyStrLe (a b : String) : Bool := strCmpL a.data b.data ≠ Ordering.gt

/-- Python's substring test `pat in s` on lists of characters. -/
def pyInL (pat : List Char) : List Char → Bool
  | [] => pat.isEmpty
  | c :: tl => pat.isPrefixOf (c :: tl) || pyInL pat tl

/-- Python's substring test `pat in s`. -/
def pyIn (pat s : String) : Bool := pyInL pat.data s.data

/-- Python `s.startswith(pat)`. -/
def pyStartsWith (pat s : String) : Bool := pat.data.isPrefixOf s.data

/-- Python `s.endswith(pat)`. -/
def pyEndsWith (pat s : String) : Bool := pat.data.reverse.isPrefixOf s.data.reverse

/-- One step of `str.replace`: replace every non-overlapping occurrence of
the pattern `p :: ps`, scanning left to right, by `rep` (Python
`str.replace` semantics for a non-empty pattern).  Fuelled by the input
length so that the recursion is structural. -/
def replaceFuel (p : Char) (ps rep : List Char) : Nat → List Char → List Char
  | 0, l => l
  | _ + 1, [] => []
  | n + 1, c :: tl =>
    if c = p ∧ ps.isPrefixOf tl then rep ++ replaceFuel p ps rep n (tl.drop ps.length)
    else c :: replaceFuel p ps rep n tl

/-- `str.replace` on character lists (non-empty pattern; for an empty
pattern, which the script never uses, the input is returned). -/
def replaceL (pat rep l : List Char) : List Char :=
  match pat with
  | [] => l
  | p :: ps => replaceFuel p ps rep l.length l

/-- Python `s.replace(pat, rep)`. -/
def pyReplace (pat rep s : String) : String := ⟨replaceL pat.data rep.data s.data⟩

/-- `dropWhile` from both ends: the shape of Python's `strip`. -/
def stripEndsL (p : Char → Bool) (l : List Char) : List Char :=
  ((l.dropWhile p).reverse.dropWhile p).reverse

/-- Python `str.strip()` (whitespace). -/
def pyStripL (l : List Char) : List Char := stripEndsL isWs l

/-- Python `str.strip()` on a `String`. -/
def pyStripStr (s : String) : String := ⟨pyStripL s.data⟩

/-- Python `str.strip('_')`. -/
def stripUnderscoreL (l : List Char) : List Char := stripEndsL (· = '_') l

/-- `re.sub(p+, rep)`-style run collapsing: every maximal run of characters
satisfying `p` becomes the single character `rep`.  The flag records whether
the previous character was part of a run. -/
def collapseRunsAux (p : Char → Bool) (rep : Char) : Bool → List Char → List Char
  | _, [] => []
  | inRun, c :: tl =>
    if p c then
      if inRun then collapseRunsAux p rep true tl
      else rep :: collapseRunsAux p rep true tl
    else c :: collapseRunsAux p rep false tl

/-- `re.sub(r'\s+', '_', s)` (line 89/97 of the script). -/
def collapseWsL (l : List Char) : List Char := collapseRunsAux isWs '_' false l

/-- `re.sub(r'_+', '_', s)` (lines 91/373/404 of the script). -/
def collapseUnderscoreL (l : List Char) : List Char := collapseRunsAux (· = '_') '_' false l

/-!
`re.sub(r'\s*\((?:farsroid\.com|www\.farsroid\.com|.*?)\)\s*$', '', text)`
(line 84).  Because `.*?` matches any characters except a newline, the
pattern strips everything from the leftmost `'('` that is closed by some
`')'` followed only by whitespace up to the end of the string (the literal
alternatives are subsumed by `.*?`).  The `\s*` before the `'('` is removed
by the `.strip()` the script applies immediately afterwards, so the model
cuts at the `'('` and relies on the subsequent strip.
-/

/-- Does `rest` (the characters after a `'('`) contain a `')'`, not preceded
by a newline, that is followed only by whitespace? -/
def attribCloses : List Char → Bool
  | [] => false
  | c :: tl =>
    if c = ')' then tl.all isWs || attribCloses tl
    else if c = '\n' then false
    else attribCloses tl

/-- Cut the string at the leftmost `'('` that closes to the end (see above);
if there is none, the string is unchanged. -/
def stripAttribL : List Char → List Char
  | [] => []
  | c :: tl => if c = '(' ∧ attribCloses tl then [] else c :: stripAttribL tl

/-- Characters illegal in filenames, from `re.sub(r'[<>:"/\\|?*()\[\]]', '_', ...)`
(line 88). -/
def isFilenameBanned (c : Char) : Bool :=
  c = '<' || c = '>' || c = ':' || c = '"' || c = '/' || c = '\\' ||
  c = '|' || c = '?' || c = '*' || c = '(' || c = ')' || c = '[' || c = ']'

/-- A parenthesis or bracket, from `re.sub(r'[\(\)\[\]]', '', ...)` (line 96). -/
def isParenBracket (c : Char) : Bool :=
  c = '(' || c = ')' || c = '[' || c = ']'

/-- En dash and em dash, canonicalized by `.replace('–', '-').replace('—', '-')`
(lines 87/95); two single-character replaces compose to one character map. -/
def dashFix (c : Char) : Char := if c = '–' ∨ c = '—' then '-' else c

/-! ## `sanitize_text` (lines 80-99) -/

/-- The `for_filename=False` branch of `sanitize_text`: strip, strip the
trailing site-attribution parenthetical, strip again, lower, canonicalize
dashes, delete parens/brackets, collapse whitespace to `'_'`, strip `'_'`. -/
def sanitizeFalseL (l : List Char) : List Char :=
  stripUnderscoreL (collapseWsL (List.filter (fun c => !isParenBracket c)
    ((pyStripL (stripAttribL (pyStripL l))).map pyLower |>.map dashFix)))

/-- The `for_filename=True` branch of `sanitize_text`: strip, strip the
trailing parenthetical, strip again, lower, canonicalize dashes, replace
filename-illegal characters by `'_'`, collapse whitespace to `'_'`,
`.replace('-_','_').replace('_-','_')`, collapse `'_'` runs, strip `'_'`. -/
def sanitizeTrueL (l : List Char) : List Char :=
  stripUnderscoreL (collapseUnderscoreL
    (replaceL ['_', '-'] ['_']
      (replaceL ['-', '_'] ['_']
        (collapseWsL
          (((pyStripL (stripAttribL (pyStripL l))).map pyLower |>.map dashFix).map
            (fun c => if isFilenameBanned c then '_' else c))))))

/-- `sanitize_text(text, for_filename)` (lines 80-99 of the script). -/
def sanitize_text (text : String) (for_filename : Bool) : String :=
  if text = "" then ""
  else if for_filename then ⟨sanitizeTrueL text.data⟩
  else ⟨sanitizeFalseL text.data⟩

/-! ## `packaging.version` (PEP 440), modelled subset

The script imports `parse` and `InvalidVersion` from `packaging.version`.
We model the subset of PEP 440 the script's version tokens inhabit:
an optional `v` prefix, a dotted numeric release, and an optional
pre-release segment (`a`/`alpha`, `b`/`beta`, `c`/`pre`/`preview`/`rc`,
with optional separator and number).  Epoch, post, dev and local segments
are not modelled (such strings parse to `none`, i.e. `InvalidVersion`).
Precedence follows `packaging`: the release tuple is compared with
trailing zeros stripped (so `1.0 == 1.0.0`), and a version with a
pre-release segment sorts strictly below the same release without one. -/

structure PyVersion where
  release : List Nat
  pre : Option (Nat × Nat)
deriving DecidableEq

/-- Numeric value of a digit run. -/
def digitsVal (l : List Char) : Nat :=
  l.foldl (fun acc c => acc * 10 + (c.toNat - 48)) 0

/-- Parse `('.' digits)*` groups, fuelled by the input length. -/
def parseDots : Nat → List Char → List Nat × List Char
  | 0, l => ([], l)
  | n + 1, l =>
    match l with
    | '.' :: rest =>
      let run := rest.takeWhile Char.isDigit
      if run.isEmpty then ([], l)
      else
        let step := parseDots n (rest.drop run.length)
        (digitsVal run :: step.1, step.2)
    | _ => ([], l)

/-- Pre-release keywords, longest first, mapped to their PEP 440 rank
(`a` = 0, `b` = 1, `rc` = 2; `alpha` → `a`, `beta` → `b`,
`c`/`pre`/`preview` → `rc`). -/
def matchPreWord (l : List Char) : Option (Nat × List Char) :=
  if "alpha".data.isPrefixOf l then some (0, l.drop 5)
  else if "beta".data.isPrefixOf l then some (1, l.drop 4)
  else if "preview".data.isPrefixOf l then some (2, l.drop 7)
  else if "pre".data.isPrefixOf l then some (2, l.drop 3)
  else if "rc".data.isPrefixOf l then some (2, l.drop 2)
  else if "a".data.isPrefixOf l then some (0, l.drop 1)
  else if "b".data.isPrefixOf l then some (1, l.drop 1)
  else if "c".data.isPrefixOf l then some (2, l.drop 1)
  else none

/-- Parse the optional pre-release tail; `some none` means "no pre-release,
input exhausted", `none` means the string is not a valid version. -/
def parsePreTail (l : List Char) : Option (Option (Nat × Nat)) :=
  match l with
  | [] => some none
  | _ =>
    let l2 := match l with
      | c :: tl => if c = '-' ∨ c = '_' ∨ c = '.' then tl else l
      | [] => l
    match matchPreWord l2 with
    | some (tag, rest) =>
      let rest2 := match rest with
        | c :: tl => if c = '-' ∨ c = '_' ∨ c = '.' then tl else rest
        | [] => rest
      let run := rest2.takeWhile Char.isDigit
      if rest2.drop run.length = [] then some (some (tag, digitsVal run)) else none
    | none => none

/-- `packaging.version.parse`, modelled subset (see section comment);
`none` models an `InvalidVersion` exception. -/
def pyParse (s : String) : Option PyVersion :=
  let l := (lowerStr s).data
  let l := match l with
    | 'v' :: tl => tl
    | _ => l
  let run := l.takeWhile Char.isDigit
  if run.isEmpty then none
  else
    let step := parseDots l.length (l.drop run.length)
    match parsePreTail step.2 with
    | some pre => some ⟨digitsVal run :: step.1, pre⟩
    | none => none

/-- Strip trailing zeros of a release tuple, as `packaging`'s comparison
key does. -/
def trimZeros (l : List Nat) : List Nat :=
  (l.reverse.dropWhile (· = 0)).reverse

/-- Lexicographic comparison of release tuples (Python tuple order). -/
def cmpNatList : List Nat → List Nat → Ordering
  | [], [] => .eq
  | [], _ :: _ => .lt
  | _ :: _, [] => .gt
  | a :: xs, b :: ys =>
    if a < b then .lt else if b < a then .gt else cmpNatList xs ys

/-- Comparison of pre-release keys: the absence of a pre-release sorts
above every pre-release (packaging uses `Infinity` there). -/
def preKeyCmp : Option (Nat × Nat) → Option (Nat × Nat) → Ordering
  | none, none => .eq
  | none, some _ => .gt
  | some _, none => .lt
  | some (l1, n1), some (l2, n2) =>
    if l1 < l2 then .lt else if l2 < l1 then .gt
    else if n1 < n2 then .lt else if n2 < n1 then .gt else .eq

/-- Precedence comparison of parsed versions (`Version.__lt__` etc.). -/
def cmpVer (x y : PyVersion) : Ordering :=
  match cmpNatList (trimZeros x.release) (trimZeros y.release) with
  | .eq => preKeyCmp x.pre y.pre
  | o => o

/-- `compare_versions(current_v_str, last_v_str)` (lines 41-77): empty
current is never an update; missing or `"0.0.0"` last is always an update;
otherwise compare parsed precedence, with a raw-string comparison as the
tie-break for equal precedence and as the fallback when parsing fails
(the three `except` handlers all return `current != last and current > last`). -/
def compare_versions (current_v_str last_v_str : String) : Bool :=
  if current_v_str = "" then false
  else if last_v_str = "" ∨ last_v_str = "0.0.0" then true
  else
    match pyParse current_v_str, pyParse last_v_str with
    | some parsed_current, some parsed_last =>
      match cmpVer parsed_current parsed_last with
      | .gt => true
      | .lt => false
      | .eq =>
        if current_v_str ≠ last_v_str then pyStrGt current_v_str last_v_str
        else false
    | _, _ => (current_v_str != last_v_str) && pyStrGt current_v_str last_v_str

/-! ## Variant classification (lines 279-356)

The per-link loop builds `variant_parts` by an `if`/`elif` keyword cascade
over `combined_text_for_variant` and then reduces it to `variant_final`.
The cascade is embedded stage by stage; each stage mirrors one block of the
source, threading the accumulated list. -/

/-- `combined_text_for_variant` (line 281): lower-cased filename and link
text joined by a space, with the literal `'(farsroid.com)'` removed. -/
def mkCombined (filename_from_url_decoded link_text : String) : String :=
  pyReplace "(farsroid.com)" "" (lowerStr filename_from_url_decoded ++ " " ++ lowerStr link_text)

/-- Build-type `if`/`elif` chain (lines 285-290). -/
def buildTypeParts (c : String) : List String :=
  if pyIn "mod-extra" c || pyIn "مود اکسترا" c || pyIn "موداکسترا" c then ["Mod-Extra"]
  else if pyIn "mod-lite" c || pyIn "مود لایت" c || pyIn "مودلایت" c then ["Mod-Lite"]
  else if pyIn "mod" c || pyIn "مود شده" c || pyIn "مود" c then ["Mod"]
  else []

/-- `Premium` tag (lines 292-294): only when no `Mod*` tag is present. -/
def addPremium (c : String) (ps : List String) : List String :=
  if (pyIn "premium" c || pyIn "پرمیوم" c) &&
      !(ps.any fun p => pyStartsWith "mod" (lowerStr p)) then ps ++ ["Premium"]
  else ps

/-- `Lite` tag (lines 296-297): only when no part already contains `lite`. -/
def addLite (c : String) (ps : List String) : List String :=
  if !(ps.any fun p => pyIn "lite" (lowerStr p)) && (pyIn "lite" c || pyIn "لایت" c) then
    ps ++ ["Lite"]
  else ps

/-- Language tags (lines 300-305). -/
def addLang (c : String) (ps : List String) : List String :=
  if pyIn "persian" c || pyIn "فارسی" c then ps ++ ["Persian"]
  else if pyIn "english" c || pyIn "انگلیسی" c then
    if ps.any (fun p => pyIn "Persian" p) then ps else ps ++ ["English"]
  else ps

/-- Architecture `elif` chain (lines 308-314); the `and not arch_found`
guards are vacuous inside the `elif` chain (`arch_found` is still `False`
when a later branch is reached), so the chain is a plain `elif` cascade. -/
def addArch (c : String) (ps : List String) : List String :=
  if pyIn "arm64-v8a" c || pyIn "arm64" c then ps ++ ["Arm64-v8a"]
  else if pyIn "armeabi-v7a" c || pyIn "armv7" c then ps ++ ["Armeabi-v7a"]
  else if pyIn "arm" c then ps ++ ["Arm"]
  else if pyIn "x86_64" c then ps ++ ["x86_64"]
  else if pyIn "x86" c then ps ++ ["x86"]
  else ps

/-- `arch_found` after the chain: true iff some architecture branch fired. -/
def arch_found_of (c : String) : Bool :=
  pyIn "arm64-v8a" c || pyIn "arm64" c || pyIn "armeabi-v7a" c || pyIn "armv7" c ||
  pyIn "arm" c || pyIn "x86_64" c || pyIn "x86" c

/-- Zip-content block (lines 319-325): for `.zip` links with no tags yet,
classify as `Windows` or `Data` by keyword, defaulting to `Data`. -/
def addZipKind (c : String) (isZip : Bool) (ps : List String) : List String :=
  if isZip then
    if pyIn "windows" c || pyIn "ویندوز" c then
      if ps.isEmpty then ps ++ ["Windows"] else ps
    else if pyIn "data" c || pyIn "دیتا" c || pyIn "obb" c then
      if ps.isEmpty then ps ++ ["Data"] else ps
    else if ps.isEmpty then ps ++ ["Data"]
    else ps
  else ps

/-- Apk-with-no-tags block (lines 328-332). -/
def addApkKind (c : String) (isZip arch_found : Bool) (ps : List String) : List String :=
  if !isZip && ps.isEmpty && !arch_found then
    if pyIn "universal" c || pyIn "اصلی" c || pyIn "original" c || pyIn "معمولی" c then
      ps ++ ["Universal"]
    else if pyIn "main" c then ps ++ ["Main"]
    else ps
  else ps

/-- `variant_parts` at line 335, as a function of the combined text and of
whether the download URL ends in `.zip`. -/
def variant_parts_of (c : String) (isZip : Bool) : List String :=
  addApkKind c isZip (arch_found_of c)
    (addZipKind c isZip (addArch c (addLang c (addLite c (addPremium c (buildTypeParts c))))))

/-- Insertion into a `pyStrLe`-sorted list. -/
def insertStr (x : String) : List String → List String
  | [] => [x]
  | y :: ys => if pyStrLe x y then x :: y :: ys else y :: insertStr x ys

/-- Insertion sort by code-point order: on duplicate-free lists this is the
unique sorted order, hence agrees with Python's `sorted`. -/
def sortStr : List String → List String
  | [] => []
  | x :: xs => insertStr x (sortStr xs)

/-- Keep the first occurrence of each element (`set(...)` up to the
reordering that the subsequent `sorted` cancels). -/
def dedupAux (seen : List String) : List String → List String
  | [] => []
  | x :: xs => if seen.contains x then dedupAux seen xs else x :: dedupAux (x :: seen) xs

/-- `sorted(list(set(p for p in variant_parts if p)))` (line 337): both the
Python expression and this model produce the code-point-sorted list of the
distinct non-empty parts. -/
def uniqueSorted (ps : List String) : List String :=
  sortStr (dedupAux [] (ps.filter (· ≠ "")))

/-- `"-".join` (and `"_".join` below). -/
def joinWith (sep : String) : List String → String
  | [] => ""
  | [x] => x
  | x :: y :: ys => x ++ sep ++ joinWith sep (y :: ys)

/-- `variant_final` (lines 337-354): the joined sorted tag set, with the
nested fallback chain when no tag was assigned. -/
def variant_final_of (link_text filename_from_url_decoded : String) (isZip : Bool) : String :=
  let c := mkCombined filename_from_url_decoded link_text
  let unique_variant_parts := uniqueSorted (variant_parts_of c isZip)
  if unique_variant_parts.isEmpty then
    if !isZip then
      if pyIn "اصلی" link_text || pyIn "معمولی" link_text then "Universal"
      else if pyIn "universal" (lowerStr filename_from_url_decoded) ||
              pyIn "main" (lowerStr filename_from_url_decoded) then "Universal"
      else "Default"
    else "Default"
  else
    let variant_final := joinWith "-" unique_variant_parts
    if variant_final = "" then (if !isZip then "Universal" else "Default")
    else variant_final

/-- Every keyword the classifier tests against the combined text, in source
order (lines 285-332). -/
def variantKeywords : List String :=
  ["mod-extra", "مود اکسترا", "موداکسترا", "mod-lite", "مود لایت", "مودلایت",
   "mod", "مود شده", "مود", "premium", "پرمیوم", "lite", "لایت",
   "persian", "فارسی", "english", "انگلیسی",
   "arm64-v8a", "arm64", "armeabi-v7a", "armv7", "arm", "x86_64", "x86",
   "windows", "ویندوز", "data", "دیتا", "obb",
   "universal", "اصلی", "original", "معمولی", "main"]

/-! ## `urllib.parse` subset (lines 260, 268)

`urljoin` and `urlparse(...).path` are modelled for the shapes the script
meets: absolute `http(s)` URLs and the common relative forms.  `unquote`
is modelled for single percent-encoded ASCII bytes (the concrete inputs
below contain no percent-escapes). -/

/-- Prefix of `l` before the first occurrence of `ch` (all of `l` if absent). -/
def cutAtChar (ch : Char) : List Char → List Char
  | [] => []
  | c :: tl => if c = ch then [] else c :: cutAtChar ch tl

/-- Rest of `l` after the first occurrence of the pattern, if any. -/
def afterL (pat : List Char) : List Char → Option (List Char)
  | [] => if pat.isEmpty then some [] else none
  | c :: tl =>
    if pat.isPrefixOf (c :: tl) then some ((c :: tl).drop pat.length)
    else afterL pat tl

/-- `urlparse(u).path` for the modelled URL shapes: drop the fragment and
query, then the `scheme://netloc` part when present. -/
def urlPath (u : String) : String :=
  let l := cutAtChar '?' (cutAtChar '#' u.data)
  match afterL "://".data l with
  | some rest => ⟨rest.dropWhile (· ≠ '/')⟩
  | none => ⟨l⟩

/-- Hexadecimal digit value. -/
def hexVal (c : Char) : Nat :=
  if c.isDigit then c.toNat - 48
  else if 'a' ≤ c ∧ c ≤ 'f' then c.toNat - 87
  else if 'A' ≤ c ∧ c ≤ 'F' then c.toNat - 55
  else 0

/-- Is `c` a hexadecimal digit? -/
def isHexDigit (c : Char) : Bool :=
  c.isDigit || ('a' ≤ c && c ≤ 'f') || ('A' ≤ c && c ≤ 'F')

/-- `urllib.parse.unquote`, modelled for single percent-encoded bytes. -/
def unquoteL : List Char → List Char
  | '%' :: a :: b :: tl =>
    if isHexDigit a ∧ isHexDigit b then Char.ofNat (hexVal a * 16 + hexVal b) :: unquoteL tl
    else '%' :: unquoteL (a :: b :: tl)
  | c :: tl => c :: unquoteL tl
  | [] => []

/-- `unquote(urlparse(download_url).path.split('/')[-1])` (line 268): the
decoded filename taken from the download URL. -/
def filename_from_url (download_url : String) : String :=
  ⟨unquoteL (((urlPath download_url).data.reverse.takeWhile (· ≠ '/')).reverse)⟩

/-- `urljoin(page_url, href)` (line 260), modelled for the common cases:
an absolute `href` is returned as-is; `//...`, `/...` and relative `href`s
are resolved against the scheme, origin, or directory of the base. -/
def pyUrljoin (base href : String) : String :=
  if (afterL "://".data href.data).isSome then href
  else if pyStartsWith "//" href then ⟨cutAtChar ':' base.data⟩ ++ ":" ++ href
  else if pyStartsWith "/" href then
    (match afterL "://".data base.data with
     | some rest => ⟨base.data.take (base.data.length - rest.length)⟩ ++ ⟨rest.takeWhile (· ≠ '/')⟩
     | none => "") ++ href
  else ⟨(base.data.reverse.dropWhile (· ≠ '/')).reverse⟩ ++ href

/-! ## `extract_version_from_text_or_url` (lines 196-229)

The three regexes are embedded as backtracking matchers over `List Char`.
A matcher returns the possible remainders after a match starting at the
head of the input, in the engine's priority order (greedy-first), so that
`find?` over the list picks exactly the alternative Python's engine picks. -/

/-- All remainders after consuming a non-empty maximal-first run of
characters satisfying `p` (the behaviour of a greedy `+` on a character
class: longest first, then backtrack one character at a time). -/
def mrun (p : Char → Bool) (s : List Char) : List (List Char) :=
  let n := (s.takeWhile p).length
  (List.range n).map fun i => s.drop (n - i)

/-- Match a single character satisfying `p`. -/
def mcls (p : Char → Bool) (s : List Char) : List (List Char) :=
  match s with
  | [] => []
  | c :: tl => if p c then [tl] else []

/-- Sequencing of matchers, preserving priority order. -/
def mseq (a b : List Char → List (List Char)) (s : List Char) : List (List Char) :=
  (a s).flatMap b

/-- Greedy `?`: with the subpattern first, then without. -/
def mopt (a : List Char → List (List Char)) (s : List Char) : List (List Char) :=
  a s ++ [s]

/-- Greedy `+`, fuelled (each repetition of the subpatterns used below
consumes at least one character, so fuel = input length is exact). -/
def mplusF (a : List Char → List (List Char)) : Nat → List Char → List (List Char)
  | 0, s => a s
  | n + 1, s => (a s).flatMap fun t => mplusF a n t ++ [t]

/-- Greedy `*`, fuelled. -/
def mstarF (a : List Char → List (List Char)) (n : Nat) (s : List Char) : List (List Char) :=
  mplusF a n s ++ [s]

/-- ASCII `[a-zA-Z0-9]`. -/
def isAsciiAlnum (c : Char) : Bool := c.isAlpha || c.isDigit

/-- `\.\d+`. -/
def dotDigits (s : List Char) : List (List Char) :=
  mseq (mcls (· = '.')) (mrun Char.isDigit) s

/-- `(?:\.\d+){1,3}`, greedy (3, then 2, then 1 repetitions). -/
def rep13 (a : List Char → List (List Char)) (s : List Char) : List (List Char) :=
  mseq a (mopt (mseq a (mopt a))) s

/-- `(?:\.\d+){1,2}`. -/
def rep12 (a : List Char → List (List Char)) (s : List Char) : List (List Char) :=
  mseq a (mopt a) s

/-- `(?:\.\d+){0,2}`, greedy (2, 1, then 0 repetitions). -/
def rep02 (a : List Char → List (List Char)) (s : List Char) : List (List Char) :=
  mopt (mseq a (mopt a)) s

/-- `[-._]?[a-zA-Z0-9]+` — one suffix atom of the first pattern. -/
def sufAtom (s : List Char) : List (List Char) :=
  mseq (mopt (mcls fun c => c = '-' || c = '.' || c = '_')) (mrun isAsciiAlnum) s

/-- `[.-]?[a-zA-Z0-9]+` — one tail atom of the fallback pattern. -/
def fbAtom (s : List Char) : List (List Char) :=
  mseq (mopt (mcls fun c => c = '.' || c = '-')) (mrun isAsciiAlnum) s

/-- Group of pattern 1 (line 202):
`\d+(?:\.\d+){1,3}(?:(?:[-._]?[a-zA-Z0-9]+)+)?`. -/
def group1 (fuel : Nat) (s : List Char) : List (List Char) :=
  mseq (mrun Char.isDigit) (mseq (rep13 dotDigits) (mopt (mplusF sufAtom fuel))) s

/-- Group of pattern 2 (line 203): `\d+(?:\.\d+){1,2}`. -/
def group2 (_fuel : Nat) (s : List Char) : List (List Char) :=
  mseq (mrun Char.isDigit) (rep12 dotDigits) s

/-- Group of the fallback pattern (line 221):
`\d+\.\d+(?:\.\d+){0,2}(?:[.-]?[a-zA-Z0-9]+)*`. -/
def groupFb (fuel : Nat) (s : List Char) : List (List Char) :=
  mseq (mrun Char.isDigit) (mseq dotDigits (mseq (rep02 dotDigits) (mstarF fbAtom fuel))) s

/-- Negative lookbehind `(?<![\w.-])` of patterns 1 and 2. -/
def lbOk : Option Char → Bool
  | none => true
  | some c => !(isWordChar c || c = '.' || c = '-')

/-- Negative lookahead `(?![.\w])` of patterns 1 and 2. -/
def laOk : List Char → Bool
  | [] => true
  | c :: _ => !(c = '.' || isWordChar c)

/-- The capture: the consumed prefix of `t` given the remainder `r`. -/
def capOf (t r : List Char) : List Char := t.take (t.length - r.length)

/-- Try a match at the current position: greedy `(?:[vV])?` (the leading
`v`, when consumed, is outside the capturing group), then the group, then
the lookahead; the first remainder (in priority order) passing the
lookahead wins. -/
def tryAtPos (g : Nat → List Char → List (List Char)) (la : List Char → Bool)
    (s : List Char) : Option (List Char) :=
  let run := fun (t : List Char) =>
    match (g t.length t).find? la with
    | some r => some (capOf t r)
    | none => none
  match s with
  | c :: tl =>
    if c = 'v' ∨ c = 'V' then
      match run tl with
      | some cap => some cap
      | none => run s
    else run s
  | [] => none

/-- `re.search` for patterns 1 and 2: leftmost position (tracking the
previous character for the lookbehind) at which a full match exists. -/
def searchPat (g : Nat → List Char → List (List Char)) (la : List Char → Bool) :
    Option Char → List Char → Option (List Char)
  | prev, [] => if lbOk prev then tryAtPos g la [] else none
  | prev, c :: tl =>
    match (if lbOk prev then tryAtPos g la (c :: tl) else none) with
    | some cap => some cap
    | none => searchPat g la (some c) tl

/-- `re.search` for the fallback pattern (no lookarounds, no `v` prefix). -/
def searchFb : List Char → Option (List Char)
  | [] => none
  | c :: tl =>
    match (groupFb (c :: tl).length (c :: tl)).head? with
    | some r => some (capOf (c :: tl) r)
    | none => searchFb tl

/-- `extract_version_from_text_or_url(text_content, url_content)`
(lines 196-229): pattern 1 then pattern 2 on the link text, the same two on
the decoded filename, then the permissive fallback on text then filename;
each returned capture is `.strip()`ed; `none` when nothing matches
(Python's falsy test on an empty string is mirrored by the `= ""` guards). -/
def extract_version_from_text_or_url (text_content url_content : String) : Option String :=
  let fromText : Option String :=
    if text_content = "" then none
    else
      match searchPat group1 laOk none text_content.data with
      | some cap => some (pyStripStr ⟨cap⟩)
      | none =>
        match searchPat group2 laOk none text_content.data with
        | some cap => some (pyStripStr ⟨cap⟩)
        | none => none
  match fromText with
  | some v => some v
  | none =>
    let fromUrl : Option String :=
      if url_content = "" then none
      else
        match searchPat group1 laOk none url_content.data with
        | some cap => some (pyStripStr ⟨cap⟩)
        | none =>
          match searchPat group2 laOk none url_content.data with
          | some cap => some (pyStripStr ⟨cap⟩)
          | none => none
    match fromUrl with
    | some v => some v
    | none =>
      let fbText : Option String :=
        if text_content = "" then none
        else
          match searchFb text_content.data with
          | some cap => some (pyStripStr ⟨cap⟩)
          | none => none
      match fbText with
      | some v => some v
      | none =>
        if url_content = "" then none
        else
          match searchFb url_content.data with
          | some cap => some (pyStripStr ⟨cap⟩)
          | none => none

/-! ## Tracking id (lines 358-373) and suggested filename (lines 383-404) -/

/-- Case-insensitive literal match; returns the rest on success. -/
def matchLitCI : List Char → List Char → Option (List Char)
  | [], s => some s
  | _ :: _, [] => none
  | p :: ps, c :: tl => if pyLower c = pyLower p then matchLitCI ps tl else none

/-- Word-boundary check after the matched version (its last character is
alphanumeric for every extracted version, so `\b` holds iff the next
character is absent or not a word character). -/
def boundaryOk : List Char → Bool
  | [] => true
  | c :: _ => !isWordChar c

/-- One attempt of `re.sub(r'\s*[vV]?' + re.escape(ver) + r'\b', '', ...)`
(line 364) at the current position: the greedy `\s*` is forced to the whole
whitespace run (versions start with a digit), then an optional `v`/`V`
(tried first), then the version literally (case-insensitively), then `\b`. -/
def verMatchAt (ver s : List Char) : Option (List Char) :=
  let rest := s.dropWhile isWs
  let tryLit := fun (t : List Char) =>
    match matchLitCI ver t with
    | some r => if boundaryOk r then some r else none
    | none => none
  match rest with
  | c :: tl =>
    if c = 'v' ∨ c = 'V' then
      match tryLit tl with
      | some r => some r
      | none => tryLit rest
    else tryLit rest
  | [] => tryLit rest

/-- The `re.sub` scan: at each position try a match; on success continue
after it, otherwise keep the character.  Fuelled by the input length
(every match consumes at least one character since `ver` is non-empty;
an empty `ver` never arises and is left unreplaced). -/
def verSubAux (ver : List Char) : Nat → List Char → List Char
  | 0, s => s
  | _ + 1, [] => []
  | n + 1, c :: tl =>
    match (if ver.isEmpty then none else verMatchAt ver (c :: tl)) with
    | some r => verSubAux ver n r
    | none => c :: verSubAux ver n tl

/-- `re.sub(r'\s*[vV]?' + re.escape(current_version) + r'\b', '', name)`. -/
def verSubStr (ver name : String) : String :=
  ⟨verSubAux ver.data name.data.length name.data⟩

/-- First field of `re.split(r'\s*[-–—]\s*', base, 1)` (line 365): the
prefix before the first hyphen/en-dash/em-dash; the whitespace the
pattern would absorb before the dash is removed by the `.strip()` the
script applies right after. -/
def cutAtDashL : List Char → List Char
  | [] => []
  | c :: tl => if c = '-' ∨ c = '–' ∨ c = '—' then [] else c :: cutAtDashL tl

/-- `base_app_name_for_id` (lines 362-366): remove the version token from
the page app name, truncate at the first dash separator, default to
`"App"` when empty. -/
def base_app_name_for_id (page_app_name_full current_version : String) : String :=
  let b := pyStripStr (verSubStr current_version page_app_name_full)
  let b := pyStripStr ⟨cutAtDashL b.data⟩
  if b = "" then "App" else b

/-- `tracking_id` (lines 369-373): `sanitize_text(base)_sanitize_text(variant)`
lower-cased, with underscore runs collapsed and stripped. -/
def tracking_id_of (page_app_name_full current_version variant_final : String) : String :=
  let tracking_id_app_part := sanitize_text (base_app_name_for_id page_app_name_full current_version) false
  let tracking_id_variant_part := sanitize_text variant_final false
  let tracking_id := lowerStr (tracking_id_app_part ++ "_" ++ tracking_id_variant_part)
  ⟨stripUnderscoreL (collapseUnderscoreL tracking_id.data)⟩

/-- `suggested_filename` (lines 383-404): sanitized base name, `v` +
version (dots to underscores), conditionally the sanitized variant, joined
by `_`, plus the extension; underscore runs collapsed and stripped. -/
def suggested_filename_of (page_app_name_full current_version variant_final file_extension : String) :
    String :=
  let app_name_sanitized := sanitize_text (base_app_name_for_id page_app_name_full current_version) true
  let version_for_file := pyReplace "." "_" (sanitize_text current_version true)
  let variant_sanitized_for_file := sanitize_text variant_final true
  let parts := [app_name_sanitized] ++
    (if version_for_file ≠ "" then ["v" ++ version_for_file] else [])
  let is_generic_variant :=
    ["universal", "default", "unknown", "main", "standard", "original"].contains
      (lowerStr variant_sanitized_for_file)
  let is_arch_or_specific_type :=
    ["arm", "x86", "data", "windows", "persian", "english", "mod", "premium", "lite"].any
      fun keyword => pyIn keyword (lowerStr variant_sanitized_for_file)
  let parts :=
    if variant_sanitized_for_file ≠ "" ∧ (¬is_generic_variant = true ∨ is_arch_or_specific_type = true) then
      parts ++ [variant_sanitized_for_file]
    else parts
  let suggested := joinWith "_" (parts.filter (· ≠ "")) ++ file_extension
  ⟨stripUnderscoreL (collapseUnderscoreL suggested.data)⟩

/-! ## Tracker store and the per-link pipeline (lines 253-423, 470-473)

The tracker (a JSON object in Python) is modelled as an association list
with `dict` semantics: lookup returns the first binding, assignment
overwrites an existing key in place or appends a new one. -/

/-- `tracker_data.get(tracking_id, "0.0.0")` (line 408). -/
def trackerGet (t : List (String × String)) (k : String) : String :=
  match t.find? (fun p => p.1 == k) with
  | some p => p.2
  | none => "0.0.0"

/-- Dictionary lookup without a default. -/
def dictGet? (t : List (String × String)) (k : String) : Option String :=
  (t.find? (fun p => p.1 == k)).map Prod.snd

/-- Python `d[k] = v` on an insertion-ordered dictionary. -/
def dictSet (t : List (String × String)) (k v : String) : List (String × String) :=
  if t.any (fun p => p.1 == k) then
    t.map fun p => if p.1 == k then (k, v) else p
  else t ++ [(k, v)]

/-- One download link as the loop sees it after the HTML parsing the model
leaves external: the `href` of the `a.download-btn` tag and its span text. -/
structure DLink where
  href : String
  link_text : String
deriving DecidableEq

/-- One element of `updates_found_on_page` (lines 411-420). -/
structure ReleaseRecord where
  app_name : String
  version : String
  variant : String
  download_url : String
  page_url : String
  tracking_id : String
  suggested_filename : String
  current_version_for_tracking : String
deriving DecidableEq

/-- The body of the per-link loop of `scrape_farsroid_page`
(lines 253-423): resolve the URL, decode the filename, extract the version
(skipping the link when none is found), classify the variant, build the
tracking id and suggested filename, and emit a record iff
`compare_versions` reports an update against the tracker. -/
def process_download_link (page_url page_app_name_full : String)
    (tracker_data : List (String × String)) (l : DLink) : List ReleaseRecord :=
  let download_url := pyUrljoin page_url l.href
  let filename_from_url_decoded := filename_from_url download_url
  match extract_version_from_text_or_url l.link_text filename_from_url_decoded with
  | none => []
  | some current_version =>
    let isZip := pyEndsWith ".zip" (lowerStr download_url)
    let file_extension := if isZip then ".zip" else ".apk"
    let variant_final := variant_final_of l.link_text filename_from_url_decoded isZip
    let tracking_id := tracking_id_of page_app_name_full current_version variant_final
    let suggested_filename :=
      suggested_filename_of page_app_name_full current_version variant_final file_extension
    let last_known_version := trackerGet tracker_data tracking_id
    if compare_versions current_version last_known_version then
      [{ app_name := page_app_name_full
         version := current_version
         variant := variant_final
         download_url := download_url
         page_url := page_url
         tracking_id := tracking_id
         suggested_filename := suggested_filename
         current_version_for_tracking := current_version }]
    else []

/-- The loop over `li.download-link` items: each link appends its records
(zero or one) to `updates_found_on_page`. -/
def scrape_farsroid_links (page_url page_app_name_full : String)
    (tracker_data : List (String × String)) : List DLink → List ReleaseRecord
  | [] => []
  | l :: ls =>
    process_download_link page_url page_app_name_full tracker_data l ++
    scrape_farsroid_links page_url page_app_name_full tracker_data ls

/-- `new_tracker_data_for_save` (lines 470-473): a copy of the loaded
tracker, with each found update written at its tracking id. -/
def new_tracker_data_for_save (tracker_data : List (String × String))
    (all_updates_found : List ReleaseRecord) : List (String × String) :=
  all_updates_found.foldl
    (fun d u => dictSet d u.tracking_id u.current_version_for_tracking) tracker_data

/-- The version stored by the last update in the list whose tracking id is
`k`, if any (later loop iterations overwrite earlier ones). -/
def lastUpdateVersion? (us : List ReleaseRecord) (k : String) : Option String :=
  match us with
  | [] => none
  | u :: rest =>
    match lastUpdateVersion? rest k with
    | some v => some v
    | none => if u.tracking_id = k then some u.current_version_for_tracking else none

/-! ## Lemmas about version comparison -/

theorem cmpNatList_refl (l : List Nat) : cmpNatList l l = .eq := by
  induction l with
  | nil => rfl
  | cons a tl ih => simp [cmpNatList, ih]

theorem preKeyCmp_refl (p : Option (Nat × Nat)) : preKeyCmp p p = .eq := by
  match p with
  | none => rfl
  | some (l, n) => simp [preKeyCmp]

theorem cmpVer_refl (x : PyVersion) : cmpVer x x = .eq := by
  simp [cmpVer, cmpNatList_refl, preKeyCmp_refl]

/-- C10: reflexivity edge of the update detector: comparing any version
string against an identical last-known value reports an update exactly when
that string is the sentinel `"0.0.0"` (the empty string is rejected as an
invalid current version before the sentinel check). -/
theorem compare_versions_self (v : String) : compare_versions v v = (v == "0.0.0") := by
  unfold compare_versions
  by_cases h0 : v = ""
  · subst h0; decide
  · by_cases h1 : v = "0.0.0"
    · subst h1; decide
    · rw [if_neg h0, if_neg (by simp [h0, h1])]
      have hbeq : (v == "0.0.0") = false := by simp [h1]
      rw [hbeq]
      cases hp : pyParse v with
      | none => simp
      | some a => simp [cmpVer_refl]

/-- C2 (amended): when both version strings parse with equal PEP 440
precedence and the raw strings differ, the detector falls back to
lexicographic string comparison.  (The pair of the original claim,
`"1.0.0b"` vs `"1.0.0"`, is not such a pair: see
`compare_versions_b_suffix_cx`.) -/
theorem compare_versions_equal_precedence_tiebreak
    (cur last : String) (a b : PyVersion)
    (hc : cur ≠ "") (hl1 : last ≠ "") (hl2 : last ≠ "0.0.0")
    (hpc : pyParse cur = some a) (hpl : pyParse last = some b)
    (heq : cmpVer a b = .eq) (hne : cur ≠ last) :
    compare_versions cur last = pyStrGt cur last := by
  unfold compare_versions
  rw [if_neg hc, if_neg (by simp [hl1, hl2]), hpc, hpl]
  simp [heq, hne]

/-- Witness for `compare_versions_equal_precedence_tiebreak`:
`"1.0.0"` and `"1.0"` parse to equal precedence, so the string tie-break
decides, and `"1.0.0" > "1.0"` lexicographically. -/
theorem compare_versions_equal_precedence_tiebreak_witness :
    compare_versions "1.0.0" "1.0" = pyStrGt "1.0.0" "1.0" ∧ pyStrGt "1.0.0" "1.0" = true :=
  ⟨compare_versions_equal_precedence_tiebreak "1.0.0" "1.0" ⟨[1, 0, 0], none⟩ ⟨[1, 0], none⟩
      (by decide) (by decide) (by decide) (by decide) (by decide) (by decide) (by decide),
    by decide⟩

/-- C2, counterexample to the claim as stated: `compare_versions("1.0.0b",
"1.0.0")` returns `false`, not `true` — `"1.0.0b"` parses as the
prerelease `1.0.0b0`, whose precedence is strictly lower than `1.0.0`, so
the equal-precedence string tie-break is never reached for this pair. -/
theorem compare_versions_b_suffix_cx : compare_versions "1.0.0b" "1.0.0" = false := by decide

/-! ## C4: empty-state bootstrap -/

theorem trackerGet_eq_default {t : List (String × String)} {k : String}
    (h : ∀ p ∈ t, p.1 ≠ k) : trackerGet t k = "0.0.0" := by
  unfold trackerGet
  have : t.find? (fun p => p.1 == k) = none := by
    rw [List.find?_eq_none]
    intro p hp
    simp [h p hp]
  rw [this]

/-- C4: empty-state bootstrap of the update detector: for every non-empty
current version string, if the tracker has no entry for the record's
tracking id (so the `.get` default `"0.0.0"` is used) or its entry is the
sentinel `"0.0.0"`, then `compare_versions` reports an update. -/
theorem compare_versions_bootstrap
    (t : List (String × String)) (tracking_id cur : String) (hcur : cur ≠ "")
    (h : (∀ p ∈ t, p.1 ≠ tracking_id) ∨ trackerGet t tracking_id = "0.0.0") :
    compare_versions cur (trackerGet t tracking_id) = true := by
  have hget : trackerGet t tracking_id = "0.0.0" := by
    cases h with
    | inl habs => exact trackerGet_eq_default habs
    | inr hval => exact hval
  rw [hget]
  unfold compare_versions
  rw [if_neg hcur, if_pos (Or.inr rfl)]

/-- Witness for `compare_versions_bootstrap`: a tracker with entries for
other ids but none for `"telegram_mod"` reports `"2.0"` as an update. -/
theorem compare_versions_bootstrap_witness :
    compare_versions "2.0" (trackerGet [("whatsapp_mod", "1.0")] "telegram_mod") = true :=
  compare_versions_bootstrap [("whatsapp_mod", "1.0")] "telegram_mod" "2.0" (by decide)
    (Or.inl (by decide))

/-! ## C5: snapshot merge frame property -/

theorem dictGet?_nil (k : String) : dictGet? [] k = none := rfl

theorem dictGet?_cons (p : String × String) (tl : List (String × String)) (k : String) :
    dictGet? (p :: tl) k = if p.1 = k then some p.2 else dictGet? tl k := by
  unfold dictGet?
  rw [List.find?_cons]
  by_cases h : p.1 = k
  · rw [show (p.1 == k) = true by simp [h], if_pos h]
    rfl
  · rw [show (p.1 == k) = false by simp [h], if_neg h]

theorem dictGet?_dictSet_self (t : List (String × String)) (k v : String) :
    dictGet? (dictSet t k v) k = some v := by
  unfold dictSet
  by_cases h : t.any (fun p => p.1 == k)
  · rw [if_pos h]
    induction t with
    | nil => simp at h
    | cons p tl ih =>
      simp only [List.any_cons, Bool.or_eq_true, beq_iff_eq] at h
      by_cases hp : p.1 = k
      · simp only [List.map_cons, if_pos (show (p.1 == k) = true by simp [hp])]
        rw [dictGet?_cons]
        simp
      · have htl : tl.any (fun q => q.1 == k) = true := by
          simp only [List.any_eq_true, beq_iff_eq]
          rcases h with h | h
          · exact absurd h hp
          · simpa only [List.any_eq_true, beq_iff_eq] using h
        simp only [List.map_cons, if_neg (show ¬(p.1 == k) = true by simp [hp])]
        rw [dictGet?_cons, if_neg hp]
        exact ih htl
  · rw [if_neg h]
    simp only [List.any_eq_true, beq_iff_eq, not_exists, not_and] at h
    induction t with
    | nil =>
      rw [List.nil_append, dictGet?_cons]
      simp
    | cons p tl ih =>
      rw [List.cons_append, dictGet?_cons, if_neg (h p (by simp))]
      exact ih fun q hq => h q (by simp [hq])

theorem dictGet?_dictSet_ne (t : List (String × String)) (k v k' : String) (hne : k' ≠ k) :
    dictGet? (dictSet t k v) k' = dictGet? t k' := by
  unfold dictSet
  by_cases h : t.any (fun p => p.1 == k)
  · rw [if_pos h]
    clear h
    induction t with
    | nil => rfl
    | cons p tl ih =>
      by_cases hp : p.1 = k
      · simp only [List.map_cons, if_pos (show (p.1 == k) = true by simp [hp])]
        rw [dictGet?_cons, dictGet?_cons, if_neg (by simpa using Ne.symm hne),
          if_neg (by rw [hp]; exact Ne.symm hne)]
        exact ih
      · simp only [List.map_cons, if_neg (show ¬(p.1 == k) = true by simp [hp])]
        rw [dictGet?_cons, dictGet?_cons]
        by_cases hp' : p.1 = k'
        · rw [if_pos hp', if_pos hp']
        · rw [if_neg hp', if_neg hp']
          exact ih
  · rw [if_neg h]
    clear h
    induction t with
    | nil =>
      rw [List.nil_append, dictGet?_cons, if_neg (by simpa using Ne.symm hne)]
    | cons p tl ih =>
      rw [List.cons_append, dictGet?_cons, dictGet?_cons]
      by_cases hp' : p.1 = k'
      · rw [if_pos hp', if_pos hp']
      · rw [if_neg hp', if_neg hp']
        exact ih

/-- C5: the next tracker snapshot is the prior one with exactly the found
updates' tracking ids overwritten by their stored versions (the last update
for an id winning, as in the Python loop); a key not among the updates
keeps its prior binding unchanged. -/
theorem new_tracker_data_frame (tracker_data : List (String × String))
    (all_updates_found : List ReleaseRecord) (k : String) :
    dictGet? (new_tracker_data_for_save tracker_data all_updates_found) k =
      match lastUpdateVersion? all_updates_found k with
      | some v => some v
      | none => dictGet? tracker_data k := by
  induction all_updates_found generalizing tracker_data with
  | nil => rfl
  | cons u rest ih =>
    unfold new_tracker_data_for_save at ih ⊢
    rw [List.foldl_cons, ih]
    show _ = match lastUpdateVersion? (u :: rest) k with
      | some v => some v
      | none => dictGet? tracker_data k
    have hcons : lastUpdateVersion? (u :: rest) k =
        match lastUpdateVersion? rest k with
        | some v => some v
        | none => if u.tracking_id = k then some u.current_version_for_tracking else none := rfl
    rw [hcons]
    cases lastUpdateVersion? rest k with
    | some v => rfl
    | none =>
      by_cases hk : u.tracking_id = k
      · rw [if_pos hk, hk]
        exact dictGet?_dictSet_self tracker_data k u.current_version_for_tracking
      · rw [if_neg hk]
        exact dictGet?_dictSet_ne tracker_data u.tracking_id u.current_version_for_tracking k
          fun h => hk h.symm

/-- C7: end-to-end variant classification example: for the decoded filename
`app-mod-extra-arm64-v8a.apk` (as decoded from the download URL) and the
link text `دانلود نسخه مود اکسترا` on an `.apk` link, the classifier
assigns exactly the tags `Mod-Extra` and `Arm64-v8a`, and the final variant
is their deduplicated, alphabetically sorted, hyphen-joined form
`Arm64-v8a-Mod-Extra`. -/
theorem variant_example_mod_extra_arm64 :
    filename_from_url "https://dl.farsroid.com/app-mod-extra-arm64-v8a.apk" =
      "app-mod-extra-arm64-v8a.apk" ∧
    pyEndsWith ".zip" (lowerStr "https://dl.farsroid.com/app-mod-extra-arm64-v8a.apk") = false ∧
    variant_parts_of (mkCombined "app-mod-extra-arm64-v8a.apk" "دانلود نسخه مود اکسترا") false =
      ["Mod-Extra", "Arm64-v8a"] ∧
    variant_final_of "دانلود نسخه مود اکسترا" "app-mod-extra-arm64-v8a.apk" false =
      "Arm64-v8a-Mod-Extra" := by
  refine ⟨by decide, by decide, by decide, by decide⟩

/-! ## C8: order-invariance of the classifier -/

theorem buildTypeParts_congr (c1 c2 : String)
    (e1 : pyIn "mod-extra" c1 = pyIn "mod-extra" c2)
    (e2 : pyIn "مود اکسترا" c1 = pyIn "مود اکسترا" c2)
    (e3 : pyIn "موداکسترا" c1 = pyIn "موداکسترا" c2)
    (e4 : pyIn "mod-lite" c1 = pyIn "mod-lite" c2)
    (e5 : pyIn "مود لایت" c1 = pyIn "مود لایت" c2)
    (e6 : pyIn "مودلایت" c1 = pyIn "مودلایت" c2)
    (e7 : pyIn "mod" c1 = pyIn "mod" c2)
    (e8 : pyIn "مود شده" c1 = pyIn "مود شده" c2)
    (e9 : pyIn "مود" c1 = pyIn "مود" c2) :
    buildTypeParts c1 = buildTypeParts c2 := by
  unfold buildTypeParts
  rw [e1, e2, e3, e4, e5, e6, e7, e8, e9]

theorem addPremium_congr (c1 c2 : String) (ps : List String)
    (e1 : pyIn "premium" c1 = pyIn "premium" c2)
    (e2 : pyIn "پرمیوم" c1 = pyIn "پرمیوم" c2) :
    addPremium c1 ps = addPremium c2 ps := by
  unfold addPremium
  rw [e1, e2]

theorem addLite_congr (c1 c2 : String) (ps : List String)
    (e1 : pyIn "lite" c1 = pyIn "lite" c2)
    (e2 : pyIn "لایت" c1 = pyIn "لایت" c2) :
    addLite c1 ps = addLite c2 ps := by
  unfold addLite
  rw [e1, e2]

theorem addLang_congr (c1 c2 : String) (ps : List String)
    (e1 : pyIn "persian" c1 = pyIn "persian" c2)
    (e2 : pyIn "فارسی" c1 = pyIn "فارسی" c2)
    (e3 : pyIn "english" c1 = pyIn "english" c2)
    (e4 : pyIn "انگلیسی" c1 = pyIn "انگلیسی" c2) :
    addLang c1 ps = addLang c2 ps := by
  unfold addLang
  rw [e1, e2, e3, e4]

theorem addArch_congr (c1 c2 : String) (ps : List String)
    (e1 : pyIn "arm64-v8a" c1 = pyIn "arm64-v8a" c2)
    (e2 : pyIn "arm64" c1 = pyIn "arm64" c2)
    (e3 : pyIn "armeabi-v7a" c1 = pyIn "armeabi-v7a" c2)
    (e4 : pyIn "armv7" c1 = pyIn "armv7" c2)
    (e5 : pyIn "arm" c1 = pyIn "arm" c2)
    (e6 : pyIn "x86_64" c1 = pyIn "x86_64" c2)
    (e7 : pyIn "x86" c1 = pyIn "x86" c2) :
    addArch c1 ps = addArch c2 ps := by
  unfold addArch
  rw [e1, e2, e3, e4, e5, e6, e7]

theorem arch_found_congr (c1 c2 : String)
    (e1 : pyIn "arm64-v8a" c1 = pyIn "arm64-v8a" c2)
    (e2 : pyIn "arm64" c1 = pyIn "arm64" c2)
    (e3 : pyIn "armeabi-v7a" c1 = pyIn "armeabi-v7a" c2)
    (e4 : pyIn "armv7" c1 = pyIn "armv7" c2)
    (e5 : pyIn "arm" c1 = pyIn "arm" c2)
    (e6 : pyIn "x86_64" c1 = pyIn "x86_64" c2)
    (e7 : pyIn "x86" c1 = pyIn "x86" c2) :
    arch_found_of c1 = arch_found_of c2 := by
  unfold arch_found_of
  rw [e1, e2, e3, e4, e5, e6, e7]

theorem addZipKind_congr (c1 c2 : String) (z : Bool) (ps : List String)
    (e1 : pyIn "windows" c1 = pyIn "windows" c2)
    (e2 : pyIn "ویندوز" c1 = pyIn "ویندوز" c2)
    (e3 : pyIn "data" c1 = pyIn "data" c2)
    (e4 : pyIn "دیتا" c1 = pyIn "دیتا" c2)
    (e5 : pyIn "obb" c1 = pyIn "obb" c2) :
    addZipKind c1 z ps = addZipKind c2 z ps := by
  unfold addZipKind
  rw [e1, e2, e3, e4, e5]

theorem addApkKind_congr (c1 c2 : String) (z af : Bool) (ps : List String)
    (e1 : pyIn "universal" c1 = pyIn "universal" c2)
    (e2 : pyIn "اصلی" c1 = pyIn "اصلی" c2)
    (e3 : pyIn "original" c1 = pyIn "original" c2)
    (e4 : pyIn "معمولی" c1 = pyIn "معمولی" c2)
    (e5 : pyIn "main" c1 = pyIn "main" c2) :
    addApkKind c1 z af ps = addApkKind c2 z af ps := by
  unfold addApkKind
  rw [e1, e2, e3, e4, e5]

theorem variant_parts_congr (c1 c2 : String) (z : Bool)
    (h : ∀ k ∈ variantKeywords, pyIn k c1 = pyIn k c2) :
    variant_parts_of c1 z = variant_parts_of c2 z := by
  unfold variant_parts_of
  rw [buildTypeParts_congr c1 c2 (h _ (by decide)) (h _ (by decide)) (h _ (by decide))
      (h _ (by decide)) (h _ (by decide)) (h _ (by decide)) (h _ (by decide))
      (h _ (by decide)) (h _ (by decide)),
    addPremium_congr c1 c2 _ (h _ (by decide)) (h _ (by decide)),
    addLite_congr c1 c2 _ (h _ (by decide)) (h _ (by decide)),
    addLang_congr c1 c2 _ (h _ (by decide)) (h _ (by decide)) (h _ (by decide))
      (h _ (by decide)),
    addArch_congr c1 c2 _ (h _ (by decide)) (h _ (by decide)) (h _ (by decide))
      (h _ (by decide)) (h _ (by decide)) (h _ (by decide)) (h _ (by decide)),
    addZipKind_congr c1 c2 z _ (h _ (by decide)) (h _ (by decide)) (h _ (by decide))
      (h _ (by decide)) (h _ (by decide)),
    arch_found_congr c1 c2 (h _ (by decide)) (h _ (by decide)) (h _ (by decide))
      (h _ (by decide)) (h _ (by decide)) (h _ (by decide)) (h _ (by decide)),
    addApkKind_congr c1 c2 z _ _ (h _ (by decide)) (h _ (by decide)) (h _ (by decide))
      (h _ (by decide)) (h _ (by decide))]

/-- C8: order-invariance of the variant classifier: two inputs (link text,
filename, extension) in which exactly the same classification keywords are
present — each keyword tested on the text the code tests it on — produce
the same tag list and the same final variant string, regardless of where
the keywords occur. -/
theorem classify_variant_order_invariance (lt1 fn1 lt2 fn2 : String) (z : Bool)
    (hkw : ∀ k ∈ variantKeywords, pyIn k (mkCombined fn1 lt1) = pyIn k (mkCombined fn2 lt2))
    (hfb1 : pyIn "اصلی" lt1 = pyIn "اصلی" lt2)
    (hfb2 : pyIn "معمولی" lt1 = pyIn "معمولی" lt2)
    (hfb3 : pyIn "universal" (lowerStr fn1) = pyIn "universal" (lowerStr fn2))
    (hfb4 : pyIn "main" (lowerStr fn1) = pyIn "main" (lowerStr fn2)) :
    variant_parts_of (mkCombined fn1 lt1) z = variant_parts_of (mkCombined fn2 lt2) z ∧
    variant_final_of lt1 fn1 z = variant_final_of lt2 fn2 z := by
  have hp := variant_parts_congr _ _ z hkw
  refine ⟨hp, ?_⟩
  simp only [variant_final_of]
  rw [hp, hfb1, hfb2, hfb3, hfb4]

/-- Witness for `classify_variant_order_invariance`: the same keywords
(`mod`, `arm64-v8a` and their substrings) in swapped order in the link
text give the same tags and variant. -/
theorem classify_variant_order_invariance_witness :
    variant_parts_of (mkCombined "app.apk" "mod arm64-v8a x") false =
      variant_parts_of (mkCombined "app.apk" "arm64-v8a mod x") false ∧
    variant_final_of "mod arm64-v8a x" "app.apk" false =
      variant_final_of "arm64-v8a mod x" "app.apk" false :=
  classify_variant_order_invariance "mod arm64-v8a x" "app.apk" "arm64-v8a mod x" "app.apk" false
    (by decide) (by decide) (by decide) (by decide) (by decide)

/-! ## C9: archive default variant -/

/-- The keywords whose absence the archive-default claim assumes: the
build-type, language and architecture keywords, and the `windows` and
`data`/`obb` keywords with their localized forms (every keyword the
classifier consults before or inside the `.zip` block). -/
def zipDefaultGuardKeywords : List String :=
  ["mod-extra", "مود اکسترا", "موداکسترا", "mod-lite", "مود لایت", "مودلایت",
   "mod", "مود شده", "مود", "premium", "پرمیوم", "lite", "لایت",
   "persian", "فارسی", "english", "انگلیسی",
   "arm64-v8a", "arm64", "armeabi-v7a", "armv7", "arm", "x86_64", "x86",
   "windows", "ویندوز", "data", "دیتا", "obb"]

theorem variant_parts_zip_default (c : String)
    (h : ∀ k ∈ zipDefaultGuardKeywords, pyIn k c = false) :
    variant_parts_of c true = ["Data"] := by
  have h1 := h "mod-extra" (by decide)
  have h2 := h "مود اکسترا" (by decide)
  have h3 := h "موداکسترا" (by decide)
  have h4 := h "mod-lite" (by decide)
  have h5 := h "مود لایت" (by decide)
  have h6 := h "مودلایت" (by decide)
  have h7 := h "mod" (by decide)
  have h8 := h "مود شده" (by decide)
  have h9 := h "مود" (by decide)
  have h10 := h "premium" (by decide)
  have h11 := h "پرمیوم" (by decide)
  have h12 := h "lite" (by decide)
  have h13 := h "لایت" (by decide)
  have h14 := h "persian" (by decide)
  have h15 := h "فارسی" (by decide)
  have h16 := h "english" (by decide)
  have h17 := h "انگلیسی" (by decide)
  have h18 := h "arm64-v8a" (by decide)
  have h19 := h "arm64" (by decide)
  have h20 := h "armeabi-v7a" (by decide)
  have h21 := h "armv7" (by decide)
  have h22 := h "arm" (by decide)
  have h23 := h "x86_64" (by decide)
  have h24 := h "x86" (by decide)
  have h25 := h "windows" (by decide)
  have h26 := h "ویندوز" (by decide)
  have h27 := h "data" (by decide)
  have h28 := h "دیتا" (by decide)
  have h29 := h "obb" (by decide)
  have hbt : buildTypeParts c = [] := by
    unfold buildTypeParts
    rw [h1, h2, h3, h4, h5, h6, h7, h8, h9]
    rfl
  have hpm : addPremium c [] = [] := by
    unfold addPremium
    rw [h10, h11]
    rfl
  have hlt : addLite c [] = [] := by
    unfold addLite
    rw [h12, h13]
    rfl
  have hlg : addLang c [] = [] := by
    unfold addLang
    rw [h14, h15, h16, h17]
    rfl
  have har : addArch c [] = [] := by
    unfold addArch
    rw [h18, h19, h20, h21, h22, h23, h24]
    rfl
  have hzp : addZipKind c true [] = ["Data"] := by
    unfold addZipKind
    rw [h25, h26, h27, h28, h29]
    rfl
  have hap : addApkKind c true (arch_found_of c) ["Data"] = ["Data"] := by
    unfold addApkKind
    rfl
  unfold variant_parts_of
  rw [hbt, hpm, hlt, hlg, har, hzp, hap]

/-- C9: archive default variant: a download link whose URL ends in `.zip`
and whose combined text contains none of the build-type, language,
architecture, `windows`, `data`/`obb` or localized keywords gets the final
variant `"Data"`. -/
theorem zip_default_variant_is_data (download_url link_text : String)
    (hz : pyEndsWith ".zip" (lowerStr download_url) = true)
    (h : ∀ k ∈ zipDefaultGuardKeywords,
      pyIn k (mkCombined (filename_from_url download_url) link_text) = false) :
    variant_final_of link_text (filename_from_url download_url)
      (pyEndsWith ".zip" (lowerStr download_url)) = "Data" := by
  rw [hz]
  simp only [variant_final_of]
  rw [variant_parts_zip_default _ h]
  rfl

/-- Witness for `zip_default_variant_is_data`: a plain data archive link. -/
theorem zip_default_variant_is_data_witness :
    variant_final_of "دانلود فایل" (filename_from_url "https://dl.farsroid.com/game-files.zip")
      (pyEndsWith ".zip" (lowerStr "https://dl.farsroid.com/game-files.zip")) = "Data" :=
  zip_default_variant_is_data "https://dl.farsroid.com/game-files.zip" "دانلود فایل"
    (by decide) (by decide)

/-! ## C1: version (in)dependence of the tracking id -/

/-- C1 (amended): the extracted version reaches the tracking id only
through the version-removal `re.sub` applied to the page app name: whenever
that removal yields the same string for the two runs — in particular when
the version occurs in the name only as a word-boundary-delimited token, as
in `App v1.2.3` vs `App v1.3.0` — the tracking ids coincide. -/
theorem tracking_id_version_independent
    (name1 name2 ver1 ver2 variant_final : String)
    (h : verSubStr ver1 name1 = verSubStr ver2 name2) :
    tracking_id_of name1 ver1 variant_final = tracking_id_of name2 ver2 variant_final := by
  unfold tracking_id_of base_app_name_for_id
  rw [h]

/-- Witness for `tracking_id_version_independent`: the claim's own pair of
versions, `1.2.3` and `1.3.0`, on a page name carrying the version as a
proper `v`-prefixed token. -/
theorem tracking_id_version_independent_witness :
    verSubStr "1.2.3" "Telegram v1.2.3" = verSubStr "1.3.0" "Telegram v1.3.0" ∧
    tracking_id_of "Telegram v1.2.3" "1.2.3" "Mod" =
      tracking_id_of "Telegram v1.3.0" "1.3.0" "Mod" :=
  ⟨by decide,
    tracking_id_version_independent "Telegram v1.2.3" "Telegram v1.3.0" "1.2.3" "1.3.0" "Mod"
      (by decide)⟩

/-- C1, counterexample to the claim as stated: when the version token in
the page app name is immediately followed by a word character, the `\b` of
the removal regex fails, the version stays inside the cleaned base name,
and the two runs of the same artifact-link template produce different
tracking ids — so the version does flow into the tracking id. -/
theorem tracking_id_version_dependent_cx :
    tracking_id_of "App 1.2.3x" "1.2.3" "Mod" ≠ tracking_id_of "App 1.3.0x" "1.3.0" "Mod" ∧
    tracking_id_of "App 1.2.3x" "1.2.3" "Mod" = "app_1.2.3x_mod" := by
  refine ⟨by decide, by decide⟩

/-! ## C6: skip-on-miss -/

/-- C6: a download link whose link text and decoded filename yield no match
for any of the version-extraction patterns contributes zero release
records, and the remaining links of the page are processed exactly as if
the link were absent (the embedding is total, so no exception can arise). -/
theorem skip_on_miss (page_url page_app_name_full : String)
    (tracker_data : List (String × String)) (pre post : List DLink) (l : DLink)
    (h : extract_version_from_text_or_url l.link_text
      (filename_from_url (pyUrljoin page_url l.href)) = none) :
    process_download_link page_url page_app_name_full tracker_data l = [] ∧
    scrape_farsroid_links page_url page_app_name_full tracker_data (pre ++ l :: post) =
      scrape_farsroid_links page_url page_app_name_full tracker_data (pre ++ post) := by
  have hskip : process_download_link page_url page_app_name_full tracker_data l = [] := by
    simp only [process_download_link]
    rw [h]
  refine ⟨hskip, ?_⟩
  induction pre with
  | nil =>
    rw [List.nil_append, List.nil_append]
    show process_download_link page_url page_app_name_full tracker_data l ++
      scrape_farsroid_links page_url page_app_name_full tracker_data post = _
    rw [hskip, List.nil_append]
  | cons p ps ih =>
    rw [List.cons_append, List.cons_append]
    show process_download_link page_url page_app_name_full tracker_data p ++
        scrape_farsroid_links page_url page_app_name_full tracker_data (ps ++ l :: post) = _
    rw [ih]
    rfl

/-- Witness for `skip_on_miss`: a versionless link (`app.apk`, Persian
caption with no digits) between two other links contributes nothing. -/
theorem skip_on_miss_witness :
    extract_version_from_text_or_url "دانلود فایل نصبی"
      (filename_from_url (pyUrljoin "https://www.farsroid.com/some-app/"
        "https://dl.farsroid.com/app.apk")) = none ∧
    scrape_farsroid_links "https://www.farsroid.com/some-app/" "Some App" []
        [⟨"https://dl.farsroid.com/app-v2.0.apk", "Download v2.0"⟩,
         ⟨"https://dl.farsroid.com/app.apk", "دانلود فایل نصبی"⟩,
         ⟨"https://dl.farsroid.com/app-data-v2.0.zip", "Download Data v2.0"⟩] =
      scrape_farsroid_links "https://www.farsroid.com/some-app/" "Some App" []
        [⟨"https://dl.farsroid.com/app-v2.0.apk", "Download v2.0"⟩,
         ⟨"https://dl.farsroid.com/app-data-v2.0.zip", "Download Data v2.0"⟩] :=
  ⟨by decide,
    (skip_on_miss "https://www.farsroid.com/some-app/" "Some App" []
      [⟨"https://dl.farsroid.com/app-v2.0.apk", "Download v2.0"⟩]
      [⟨"https://dl.farsroid.com/app-data-v2.0.zip", "Download Data v2.0"⟩]
      ⟨"https://dl.farsroid.com/app.apk", "دانلود فایل نصبی"⟩ (by decide)).2⟩

/-! ## C3: idempotence of `sanitize_text` -/

theorem charLeIffToNat (c d : Char) : c ≤ d ↔ c.toNat ≤ d.toNat := by
  rw [Char.le_def, UInt32.le_def, BitVec.le_def]
  exact Iff.rfl

theorem pyLower_idem (c : Char) : pyLower (pyLower c) = pyLower c := by
  unfold pyLower
  have ha : ('A' : Char).toNat = 65 := by decide
  have hz : ('Z' : Char).toNat = 90 := by decide
  by_cases h : 'A' ≤ c ∧ c ≤ 'Z'
  · rw [if_pos h]
    have h1 : 65 ≤ c.toNat := by
      have := (charLeIffToNat 'A' c).mp h.1
      omega
    have h2 : c.toNat ≤ 90 := by
      have := (charLeIffToNat c 'Z').mp h.2
      omega
    have hvalid : Nat.isValidChar (c.toNat + 32) := Or.inl (by omega)
    have hv : (Char.ofNat (c.toNat + 32)).toNat = c.toNat + 32 := by
      unfold Char.ofNat
      rw [dif_pos hvalid]
      rfl
    rw [if_neg]
    intro hcon
    have hc1 := (charLeIffToNat 'A' _).mp hcon.1
    have hc2 := (charLeIffToNat _ 'Z').mp hcon.2
    rw [hv] at hc1 hc2
    omega
  · rw [if_neg h, if_neg h]

theorem mem_dropWhile {p : Char → Bool} {l : List Char} {c : Char}
    (h : c ∈ l.dropWhile p) : c ∈ l := by
  induction l with
  | nil => simp at h
  | cons a tl ih =>
    rw [List.dropWhile_cons] at h
    by_cases ha : p a
    · rw [if_pos ha] at h
      exact List.mem_cons_of_mem a (ih h)
    · rw [if_neg ha] at h
      exact h

theorem mem_stripEndsL {p : Char → Bool} {l : List Char} {c : Char}
    (h : c ∈ stripEndsL p l) : c ∈ l := by
  unfold stripEndsL at h
  rw [List.mem_reverse] at h
  have h2 := mem_dropWhile h
  rw [List.mem_reverse] at h2
  exact mem_dropWhile h2

theorem dropWhile_eq_self_of_all {p : Char → Bool} {l : List Char}
    (h : ∀ c ∈ l, p c = false) : l.dropWhile p = l := by
  cases l with
  | nil => rfl
  | cons a tl => rw [List.dropWhile_cons, if_neg (by simp [h a (by simp)])]

theorem stripEndsL_eq_self_of_all {p : Char → Bool} {l : List Char}
    (h : ∀ c ∈ l, p c = false) : stripEndsL p l = l := by
  unfold stripEndsL
  rw [dropWhile_eq_self_of_all h,
    dropWhile_eq_self_of_all (fun c hc => h c (List.mem_reverse.mp hc)),
    List.reverse_reverse]

theorem prefix_dropWhile_eq_self {p : Char → Bool} {t u : List Char}
    (hpre : t <+: u) (hu : u.dropWhile p = u) : t.dropWhile p = t := by
  cases t with
  | nil => rfl
  | cons c t' =>
    obtain ⟨r, hr⟩ := hpre
    subst hr
    rw [List.cons_append, List.dropWhile_cons] at hu
    by_cases hc : p c
    · exfalso
      rw [if_pos hc] at hu
      have hsfx := List.dropWhile_suffix (l := t' ++ r) p
      rw [hu] at hsfx
      have hlen := hsfx.length_le
      simp at hlen
    · rw [List.dropWhile_cons, if_neg hc]

theorem stripEndsL_idem (p : Char → Bool) (l : List Char) :
    stripEndsL p (stripEndsL p l) = stripEndsL p l := by
  show List.rdropWhile p (List.dropWhile p (List.rdropWhile p (List.dropWhile p l))) =
    List.rdropWhile p (List.dropWhile p l)
  rw [prefix_dropWhile_eq_self (List.rdropWhile_prefix p _) (List.dropWhile_idempotent p l)]
  exact List.rdropWhile_idempotent p _

theorem mem_stripAttribL {l : List Char} {c : Char} (h : c ∈ stripAttribL l) : c ∈ l := by
  induction l with
  | nil => simp [stripAttribL] at h
  | cons a tl ih =>
    simp only [stripAttribL] at h
    by_cases ha : a = '(' ∧ attribCloses tl
    · rw [if_pos ha] at h
      simp at h
    · rw [if_neg ha] at h
      rcases List.mem_cons.mp h with h | h
      · simp [h]
      · exact List.mem_cons_of_mem a (ih h)

theorem stripAttribL_eq_self {l : List Char} (h : '(' ∉ l) : stripAttribL l = l := by
  induction l with
  | nil => rfl
  | cons a tl ih =>
    have ha : ¬(a = '(' ∧ attribCloses tl) := fun hc => h (by simp [hc.1])
    simp only [stripAttribL, if_neg ha]
    rw [ih fun hm => h (List.mem_cons_of_mem a hm)]

theorem mem_collapseRunsAux {p : Char → Bool} {rep : Char} {l : List Char} {c : Char}
    {b : Bool} (h : c ∈ collapseRunsAux p rep b l) : c = rep ∨ (c ∈ l ∧ p c = false) := by
  induction l generalizing b with
  | nil => simp [collapseRunsAux] at h
  | cons a tl ih =>
    simp only [collapseRunsAux] at h
    by_cases ha : p a
    · rw [if_pos ha] at h
      by_cases hb : b
      · rw [if_pos hb] at h
        rcases ih h with h | ⟨h1, h2⟩
        · exact Or.inl h
        · exact Or.inr ⟨List.mem_cons_of_mem a h1, h2⟩
      · rw [if_neg hb] at h
        rcases List.mem_cons.mp h with h | h
        · exact Or.inl h
        · rcases ih h with h | ⟨h1, h2⟩
          · exact Or.inl h
          · exact Or.inr ⟨List.mem_cons_of_mem a h1, h2⟩
    · rw [if_neg ha] at h
      rcases List.mem_cons.mp h with h | h
      · subst h
        exact Or.inr ⟨by simp, by simpa using ha⟩
      · rcases ih h with h | ⟨h1, h2⟩
        · exact Or.inl h
        · exact Or.inr ⟨List.mem_cons_of_mem a h1, h2⟩

theorem collapseRunsAux_eq_self {p : Char → Bool} {rep : Char} {l : List Char}
    (h : ∀ c ∈ l, p c = false) (b : Bool) : collapseRunsAux p rep b l = l := by
  induction l generalizing b with
  | nil => rfl
  | cons a tl ih =>
    have ha : p a = false := h a (by simp)
    simp only [collapseRunsAux]
    rw [if_neg (by simp [ha]), ih fun c hc => h c (List.mem_cons_of_mem a hc)]

theorem map_eq_self_of_fix {f : Char → Char} {l : List Char}
    (h : ∀ c ∈ l, f c = c) : l.map f = l := by
  induction l with
  | nil => rfl
  | cons a tl ih =>
    rw [List.map_cons, h a (by simp), ih fun c hc => h c (List.mem_cons_of_mem a hc)]

/-- The character-level invariant of the display-mode output: no
whitespace, fixed under lowering, no parens/brackets, no en/em dashes. -/
def displayOk (c : Char) : Prop :=
  isWs c = false ∧ pyLower c = c ∧ isParenBracket c = false ∧ c ≠ '–' ∧ c ≠ '—'

theorem dashFix_displayOk {a : Char} (hlow : pyLower a = a) :
    pyLower (dashFix a) = dashFix a ∧ dashFix a ≠ '–' ∧ dashFix a ≠ '—' := by
  unfold dashFix
  by_cases h : a = '–' ∨ a = '—'
  · rw [if_pos h]
    refine ⟨by decide, by decide, by decide⟩
  · rw [if_neg h]
    push_neg at h
    exact ⟨hlow, h.1, h.2⟩

theorem sanitizeFalseL_chars (l : List Char) : ∀ c ∈ sanitizeFalseL l, displayOk c := by
  intro c hc
  unfold sanitizeFalseL at hc
  have hc2 := mem_stripEndsL hc
  rcases mem_collapseRunsAux hc2 with hrep | ⟨hmem, hws⟩
  · subst hrep
    refine ⟨by decide, by decide, by decide, by decide, by decide⟩
  · rw [List.mem_filter] at hmem
    obtain ⟨hmem2, hq⟩ := hmem
    rw [List.mem_map] at hmem2
    obtain ⟨a, ha, hfa⟩ := hmem2
    rw [List.mem_map] at ha
    obtain ⟨b, _, hfb⟩ := ha
    have hlow : pyLower a = a := by
      rw [← hfb]
      exact pyLower_idem b
    obtain ⟨hl, hd1, hd2⟩ := dashFix_displayOk hlow
    rw [hfa] at hl hd1 hd2
    exact ⟨hws, hl, by simpa using hq, hd1, hd2⟩

theorem stripUnderscoreL_idem (l : List Char) :
    stripUnderscoreL (stripUnderscoreL l) = stripUnderscoreL l :=
  stripEndsL_idem _ l

theorem sanitizeFalseL_idem (l : List Char) :
    sanitizeFalseL (sanitizeFalseL l) = sanitizeFalseL l := by
  have hc := sanitizeFalseL_chars l
  set t := sanitizeFalseL l with ht
  show sanitizeFalseL t = t
  unfold sanitizeFalseL
  have hstrip : pyStripL t = t :=
    stripEndsL_eq_self_of_all fun c hcm => (hc c hcm).1
  have hattrib : stripAttribL t = t := by
    refine stripAttribL_eq_self fun hmem => ?_
    have := (hc _ hmem).2.2.1
    simp [isParenBracket] at this
  have hlower : t.map pyLower = t :=
    map_eq_self_of_fix fun c hcm => (hc c hcm).2.1
  have hdash : t.map dashFix = t := by
    refine map_eq_self_of_fix fun c hcm => ?_
    unfold dashFix
    rw [if_neg]
    push_neg
    exact ⟨(hc c hcm).2.2.2.1, (hc c hcm).2.2.2.2⟩
  have hfilter : t.filter (fun c => !isParenBracket c) = t := by
    rw [List.filter_eq_self]
    intro c hcm
    simp [(hc c hcm).2.2.1]
  have hcollapse : collapseWsL t = t :=
    collapseRunsAux_eq_self (fun c hcm => (hc c hcm).1) false
  rw [hstrip, hattrib, hstrip, hlower, hdash, hfilter, hcollapse, ht]
  exact stripUnderscoreL_idem _

/-- C3 (amended): idempotence of text normalization holds for the
display/tracking mode (`for_filename = false`): for every string,
normalizing an already-normalized string again returns it unchanged.
(For `for_filename = true` idempotence fails: see
`sanitize_text_filename_not_idem_cx`.) -/
theorem sanitize_text_idem_display (s : String) :
    sanitize_text (sanitize_text s false) false = sanitize_text s false := by
  unfold sanitize_text
  by_cases h : s = ""
  · simp [h]
  · rw [if_neg h]
    simp only [Bool.false_eq_true, if_false]
    by_cases ht : (⟨sanitizeFalseL s.data⟩ : String) = ""
    · rw [if_pos ht, ht]
    · rw [if_neg ht]
      show (⟨sanitizeFalseL (sanitizeFalseL s.data)⟩ : String) = _
      rw [sanitizeFalseL_idem]

/-- C3, counterexample to the claim as stated: in filename mode the
`.replace('-_','_')` pass can leave a new `-_` adjacency behind
(`"--_x"` becomes `"-_x"`), so a second normalization changes the string
again (to `"x"`): `sanitize_text` is not idempotent for
`for_filename = true`. -/
theorem sanitize_text_filename_not_idem_cx :
    sanitize_text (sanitize_text "--_x" true) true ≠ sanitize_text "--_x" true ∧
    sanitize_text "--_x" true = "-_x" ∧
    sanitize_text (sanitize_text "--_x" true) true = "x" := by
  refine ⟨by decide, by decide, by decide⟩
